import Mathlib

set_option maxRecDepth 4000

/-!
Verification of the router-list core (registry maintenance, node and
directory-server selection, exit-policy evaluation) of
`src/trunk/src/or/routerlist.c`, shallowly embedded in Lean.

Machine integers (`uint32_t` addresses and masks, `uint16_t` ports) are
modelled as `Nat`; `time_t` timestamps as `Int`; C strings as `String`
(lists of characters); the 20-byte identity digest as `List Nat`.
External collaborators that `routerlist.c` calls but whose code is not part
of this file's source (smartlist primitives, `strcasecmp`, `base16_decode`,
key comparison) are modelled from the spec's description of their
interfaces, and are marked as such in their doc comments.
-/

/-- The two actions of an exit-policy rule (`EXIT_POLICY_ACCEPT` /
`EXIT_POLICY_REJECT`). -/
inductive PolicyType where
  | accept
  | reject
deriving DecidableEq

/-- One exit-policy rule (`struct exit_policy_t`): action, network address,
mask, and inclusive port range. -/
structure ExitPolicy where
  policy_type : PolicyType
  addr : Nat
  msk : Nat
  prt_min : Nat
  prt_max : Nat
deriving DecidableEq

/-- The tri-state result of policy evaluation (`ADDR_POLICY_ACCEPTED`,
`ADDR_POLICY_REJECTED`, `ADDR_POLICY_UNKNOWN`). -/
inductive AddrPolicyResult where
  | accepted
  | rejected
  | unknown
deriving DecidableEq

/-- One relay record (`routerinfo_t`), restricted to the fields this module
reads or writes. -/
structure RouterInfo where
  nickname : String
  address : String
  addr : Nat
  or_port : Nat
  dir_port : Nat
  identity_digest : List Nat
  identity_pkey : Nat
  published_on : Int
  is_running : Bool
  is_trusted_dir : Bool
  exit_policy : List ExitPolicy
deriving DecidableEq

/-- The registry (`routerlist_t`): record list plus the two timestamps. -/
structure Routerlist where
  routers : List RouterInfo
  published_on : Int
  running_routers_updated_on : Int
deriving DecidableEq

/-- A running-routers status feed (`running_routers_t`). -/
structure RunningRouters where
  published_on : Int
  running_routers : List String
deriving DecidableEq

/-- Modelled from the spec: C-locale `tolower` on one character (ASCII),
as used by `strcasecmp`. -/
def lowerChar (c : Char) : Char :=
  if 'A' ≤ c ∧ c ≤ 'Z' then Char.ofNat (c.toNat + 32) else c

/-- Modelled from the spec: `strcasecmp(a,b) == 0`, i.e. case-insensitive
(ASCII) string equality. -/
def strcaseEq (a b : String) : Bool :=
  decide (a.toList.map lowerChar = b.toList.map lowerChar)

/-- Modelled from the spec: value of one hexadecimal digit, accepting both
cases; `none` on a non-hex character. -/
def hex_digit_val (c : Char) : Option Nat :=
  let n := c.toNat
  if 48 ≤ n ∧ n ≤ 57 then some (n - 48)
  else if 65 ≤ n ∧ n ≤ 70 then some (n - 55)
  else if 97 ≤ n ∧ n ≤ 102 then some (n - 87)
  else none

/-- Modelled from the spec: `base16_decode`, turning a list of hex
characters into bytes; fails on odd length or a malformed digit. -/
def base16_decode : List Char → Option (List Nat)
  | [] => some []
  | [_] => none
  | a :: b :: rest =>
    match hex_digit_val a, hex_digit_val b, base16_decode rest with
    | some x, some y, some l => some ((x * 16 + y) :: l)
    | _, _, _ => none

/-- The per-rule outcome computed inside the rule loop of
`router_compare_addr_to_exit_policy`: first component is the `match` flag,
second the `maybe` flag. Address 0 means the target address is unknown,
port 0 is the wildcard port query, exactly as in the source. -/
def rule_match_maybe (addr port : Nat) (tmpe : ExitPolicy) : Bool × Bool :=
  if addr = 0 then
    if tmpe.prt_min ≤ port ∧ port ≤ tmpe.prt_max then
      if tmpe.msk = 0 then (true, false) else (false, true)
    else if port = 0 then (false, true)
    else (false, false)
  else
    if Nat.land addr tmpe.msk = Nat.land tmpe.addr tmpe.msk then
      if tmpe.prt_min ≤ port ∧ port ≤ tmpe.prt_max then (true, false)
      else if port = 0 then (false, true)
      else (false, false)
    else (false, false)

/-- The rule-walking loop of `router_compare_addr_to_exit_policy`, carrying
the `maybe_reject` / `maybe_accept` accumulators. -/
def exit_policy_walk (addr port : Nat) (maybe_reject maybe_accept : Bool) :
    List ExitPolicy → AddrPolicyResult
  | [] => if maybe_reject then AddrPolicyResult.unknown else AddrPolicyResult.accepted
  | tmpe :: rest =>
    let mm := rule_match_maybe addr port tmpe
    let mr := maybe_reject || (mm.2 && decide (tmpe.policy_type = PolicyType.reject))
    let ma := maybe_accept || (mm.2 && decide (tmpe.policy_type = PolicyType.accept))
    if mm.1 then
      if tmpe.policy_type = PolicyType.accept then
        if mr then AddrPolicyResult.unknown else AddrPolicyResult.accepted
      else
        if ma then AddrPolicyResult.unknown else AddrPolicyResult.rejected
    else exit_policy_walk addr port mr ma rest

/-- `router_compare_addr_to_exit_policy`: classify `addr:port` against an
ordered exit policy; `addr = 0` means the target address is unknown. -/
def router_compare_addr_to_exit_policy (addr port : Nat)
    (policy : List ExitPolicy) : AddrPolicyResult :=
  exit_policy_walk addr port false false policy

/-- The first rule of the §8 sample policy: `Accept 1.2.3.4/32 port 80`. -/
def samplePolicyRule1 : ExitPolicy :=
  { policy_type := PolicyType.accept, addr := 0x01020304, msk := 0xFFFFFFFF,
    prt_min := 80, prt_max := 80 }

/-- The second rule of the §8 sample policy: `Reject 0.0.0.0/0 port *`. -/
def samplePolicyRule2 : ExitPolicy :=
  { policy_type := PolicyType.reject, addr := 0, msk := 0,
    prt_min := 0, prt_max := 65535 }

/-- The §8 sample policy rule list. -/
def samplePolicy : List ExitPolicy := [samplePolicyRule1, samplePolicyRule2]

/-- A rule with a nonzero mask and port range `[80,80]`, used to exhibit
the behaviour of the unknown-address branch at the wildcard port. -/
def narrowMaskedRule : ExitPolicy :=
  { policy_type := PolicyType.accept, addr := 0, msk := 1,
    prt_min := 80, prt_max := 80 }

/-- `router_add_to_routerlist`: merge one incoming record into the record
list, scanning for a case-insensitive nickname match. Returns the C result
code (0 = added or replaced, -1 = not added) together with the updated
list; the source's in-place mutation and free/consume of records becomes
returning the new list. Key comparison (`crypto_pk_cmp_keys(a,b) == 0`) is
modelled as equality of the `identity_pkey` handles. -/
def router_add_to_routerlist (router : RouterInfo) :
    List RouterInfo → Int × List RouterInfo
  | [] => (0, [router])
  | r :: rest =>
    if strcaseEq router.nickname r.nickname then
      if router.identity_pkey = r.identity_pkey then
        if r.published_on < router.published_on then
          (0, { router with
                is_trusted_dir := router.is_trusted_dir || r.is_trusted_dir,
                addr := if strcaseEq r.address router.address then r.addr
                        else router.addr } :: rest)
        else
          (-1, { r with
                 is_trusted_dir := r.is_trusted_dir || router.is_trusted_dir,
                 is_running := router.is_running } :: rest)
      else (-1, r :: rest)
    else
      ((router_add_to_routerlist router rest).1,
       r :: (router_add_to_routerlist router rest).2)

/-- `routerlist_remove_old_routers`, parametrised by the cutoff
(`time(NULL) - ROUTER_MAX_AGE` in the source): drop every record strictly
older than the cutoff whose directory port is 0. The source's
index-with-deletion loop re-examines the slot after each removal, so it
removes exactly the records this recursion removes. -/
def routerlist_remove_old_routers (cutoff : Int) :
    List RouterInfo → List RouterInfo
  | [] => []
  | router :: rest =>
    if router.published_on < cutoff ∧ router.dir_port = 0 then
      routerlist_remove_old_routers cutoff rest
    else router :: routerlist_remove_old_routers cutoff rest

/-- The predicate asserted by `router_pick_directory_server_impl` and
`all_directory_servers_down` (`tor_assert(router->dir_port > 0)` on every
trusted record they examine): every trusted directory record has a
nonzero directory port. -/
def dir_port_invariant (rl : List RouterInfo) : Bool :=
  rl.all (fun r => !r.is_trusted_dir || decide (0 < r.dir_port))

/-- `router_get_by_digest`: first record whose identity digest equals
`digest`. -/
def router_get_by_digest (rl : List RouterInfo) (digest : List Nat) :
    Option RouterInfo :=
  rl.find? (fun r => decide (r.identity_digest = digest))

/-- Strip one leading dollar marker, as `router_get_by_hexdigest` and
`router_hex_digest_matches` do before decoding. -/
def strip_dollar (s : String) : List Char :=
  match s.toList with
  | '$' :: rest => rest
  | l => l

/-- `router_get_by_hexdigest`: decode a (possibly `$`-prefixed) 40-char
hex digest and look it up; `none` on malformed input. -/
def router_get_by_hexdigest (rl : List RouterInfo) (hexdigest : String) :
    Option RouterInfo :=
  if (strip_dollar hexdigest).length = 40 then
    match base16_decode (strip_dollar hexdigest) with
    | some digest => router_get_by_digest rl digest
    | none => none
  else none

/-- `router_hex_digest_matches`: does `router`'s identity digest match the
(possibly `$`-prefixed) hex token? False on malformed input. -/
def router_hex_digest_matches (router : RouterInfo) (hexdigest : String) :
    Bool :=
  if (strip_dollar hexdigest).length = 40 then
    match base16_decode (strip_dollar hexdigest) with
    | some digest => decide (router.identity_digest = digest)
    | none => false
  else false

/-- `router_nickname_matches`: case-insensitive nickname match for a token
not starting with `$`, else (and as fallback) a hex-digest match. -/
def router_nickname_matches (router : RouterInfo) (nickname : String) :
    Bool :=
  (decide (nickname.toList.head? ≠ some '$') &&
    strcaseEq router.nickname nickname) ||
  router_hex_digest_matches router nickname

/-- The hex interpretation `router_get_by_nickname` computes for a token
without the `$` marker: `some digest` exactly when the token is 40
characters of valid hex (the `maybedigest` flag and `digest` buffer of the
source). -/
def hex40_decode (nickname : String) : Option (List Nat) :=
  if nickname.toList.length = 40 then base16_decode nickname.toList else none

/-- The per-record test of `router_get_by_nickname`'s scan: nickname
match, or identity-digest match when the token decodes as a 40-char hex
digest. -/
def nickname_or_digest_match (maybedigest : Bool) (digest : List Nat)
    (nickname : String) (r : RouterInfo) : Bool :=
  strcaseEq r.nickname nickname ||
    (maybedigest && decide (r.identity_digest = digest))

/-- `router_get_by_nickname`: `$`-tokens go through the hex-digest path;
any other token is matched against the registry in order, each record
tested by nickname and (when the token is plausible hex) by digest. -/
def router_get_by_nickname (rl : List RouterInfo) (nickname : String) :
    Option RouterInfo :=
  if nickname.toList.head? = some '$' then router_get_by_hexdigest rl nickname
  else
    rl.find? (nickname_or_digest_match (hex40_decode nickname).isSome
      ((hex40_decode nickname).getD []) nickname)

/-- Delimiters of a nickname list: C-locale `isspace` plus the comma. -/
def is_space_or_comma (c : Char) : Bool :=
  c = ' ' || c = '\t' || c = '\n' || c = '\x0b' || c = '\x0c' || c = '\r' ||
    c = ','

/-- Take the longest delimiter-free run at the head of the list, returning
it and the remainder. -/
def take_token : List Char → List Char × List Char
  | [] => ([], [])
  | c :: rest =>
    if is_space_or_comma c then ([], c :: rest)
    else (c :: (take_token rest).1, (take_token rest).2)

/-- Fuelled splitter: each step either skips a delimiter or emits a token,
consuming at least one character, so `tokenize`'s fuel always suffices. -/
def tokenize_fuel : Nat → List Char → List (List Char)
  | 0, _ => []
  | _, [] => []
  | fuel + 1, c :: rest =>
    if is_space_or_comma c then tokenize_fuel fuel rest
    else (c :: (take_token rest).1) :: tokenize_fuel fuel (take_token rest).2

/-- The comma-and-whitespace token scan of
`add_nickname_list_to_smartlist`: maximal nonempty delimiter-free runs, in
order. -/
def tokenize (l : List Char) : List (List Char) :=
  tokenize_fuel l.length l

/-- The token-resolution loop of `add_nickname_list_to_smartlist`: known
running routers are collected in token order; known-but-down and unknown
tokens are dropped with a diagnostic. -/
def add_nickname_tokens (rl : List RouterInfo) :
    List (List Char) → List RouterInfo
  | [] => []
  | tok :: rest =>
    match router_get_by_nickname rl (String.mk tok) with
    | some router =>
      if router.is_running then router :: add_nickname_tokens rl rest
      else add_nickname_tokens rl rest
    | none => add_nickname_tokens rl rest

/-- `add_nickname_list_to_smartlist`: tokenize the list and resolve each
token. -/
def add_nickname_list_to_smartlist (rl : List RouterInfo) (list : String) :
    List RouterInfo :=
  add_nickname_tokens rl (tokenize list.toList)

/-- `router_add_running_routers_to_smartlist`: all running records,
further restricted — when the instance accepts inbound relay connections
(`options.ORPort`) — to identities with a live connection
(`connection_get_by_identity_digest`, an external collaborator modelled as
the predicate `hasConn`). -/
def router_add_running_routers_to_smartlist (rl : List RouterInfo)
    (orport : Bool) (hasConn : List Nat → Bool) : List RouterInfo :=
  rl.filter (fun r => r.is_running && (!orport || hasConn r.identity_digest))

/-- Modelled from the spec: `smartlist_choose` returns a uniformly random
member, `NULL` on an empty list; the random draw is supplied as the index
`k`, reduced modulo the length. -/
def smartlist_choose (k : Nat) (sl : List RouterInfo) : Option RouterInfo :=
  sl[k % sl.length]?

/-- Modelled from the spec: `smartlist_subtract sl1 sl2` removes from
`sl1` every member of `sl2`. -/
def smartlist_subtract (sl1 sl2 : List RouterInfo) : List RouterInfo :=
  sl1.filter (fun r => !decide (r ∈ sl2))

/-- `router_choose_random_node`: try the preferred names minus the
exclusions, then every running router minus the exclusions; `k1, k2` are
the random draws of the two `smartlist_choose` calls. A `NULL`
`excludedsmartlist` is modelled as the empty list (subtracting it is a
no-op, as in the source's guarded call). -/
def router_choose_random_node (rl : List RouterInfo) (orport : Bool)
    (hasConn : List Nat → Bool) (k1 k2 : Nat) (preferred excluded : String)
    (excludedsmartlist : List RouterInfo) : Option RouterInfo :=
  match smartlist_choose k1
      (smartlist_subtract (smartlist_subtract
        (add_nickname_list_to_smartlist rl preferred)
        (add_nickname_list_to_smartlist rl excluded)) excludedsmartlist) with
  | some choice => some choice
  | none =>
    smartlist_choose k2
      (smartlist_subtract (smartlist_subtract
        (router_add_running_routers_to_smartlist rl orport hasConn)
        (add_nickname_list_to_smartlist rl excluded)) excludedsmartlist)

/-- The mark-as-running update applied by the fallback loop of
`router_pick_directory_server_impl` to every trusted record. -/
def mark_trusted_running (r : RouterInfo) : RouterInfo :=
  if r.is_trusted_dir then { r with is_running := true } else r

/-- `router_pick_directory_server_impl`: choose among running trusted
directories; if none, mark every trusted directory running and choose
among those. Both loops run `tor_assert(router->dir_port > 0)` on every
trusted record they examine (the first on running trusted records, the
fallback on all trusted records); an assertion failure aborts the process
and is modelled as the outer `none`. On a non-aborting run the result is
`some` of the choice together with the (possibly updated) record list;
`k1, k2` are the random draws. -/
def router_pick_directory_server_impl (k1 k2 : Nat) (rl : List RouterInfo) :
    Option (Option RouterInfo × List RouterInfo) :=
  if rl.any (fun r => r.is_running && r.is_trusted_dir && decide (r.dir_port = 0)) then
    none
  else
    match smartlist_choose k1
        (rl.filter (fun r => r.is_running && r.is_trusted_dir)) with
    | some router => some (some router, rl)
    | none =>
      if rl.any (fun r => r.is_trusted_dir && decide (r.dir_port = 0)) then
        none
      else
        some (smartlist_choose k2
          ((rl.map mark_trusted_running).filter (fun r => r.is_trusted_dir)),
         rl.map mark_trusted_running)

/-- The per-record scan of `routerlist_update_from_runningrouters`: the
first token that name-matches the record decides its `is_running` flag — a
plain token sets it, a `!`-token (passed whole to the matcher, exactly as
in the source) clears it. -/
def update_router_from_names (router : RouterInfo) :
    List String → RouterInfo
  | [] => router
  | name :: rest =>
    if name.toList.head? ≠ some '!' then
      if router_nickname_matches router name then
        { router with is_running := true }
      else update_router_from_names router rest
    else
      if router_nickname_matches router name then
        { router with is_running := false }
      else update_router_from_names router rest

/-- `routerlist_update_from_runningrouters`: apply a running-status feed
unless it is stale with respect to either registry timestamp; on success
update every record and stamp `running_routers_updated_on`. -/
def routerlist_update_from_runningrouters (list : Routerlist)
    (rr : RunningRouters) : Routerlist :=
  if rr.published_on ≤ list.published_on then list
  else if rr.published_on ≤ list.running_routers_updated_on then list
  else
    { routers := list.routers.map
        (fun router => update_router_from_names router rr.running_routers)
      published_on := list.published_on
      running_routers_updated_on := rr.published_on }

/-- A base relay record used to build the concrete registries below. -/
def baseRouter : RouterInfo :=
  { nickname := "node", address := "node.example", addr := 1, or_port := 9001,
    dir_port := 0, identity_digest := List.replicate 20 0, identity_pkey := 1,
    published_on := 0, is_running := true, is_trusted_dir := false,
    exit_policy := [] }

/-- A running trusted directory record published at time 10. -/
def trustedDirRouter : RouterInfo :=
  { baseRouter with
    nickname := "ndir"
    address := "dir.example"
    dir_port := 9030
    published_on := 10
    identity_pkey := 5
    is_trusted_dir := true }

/-- A newer descriptor for the same identity and nickname as
`trustedDirRouter`, advertising directory port 0 and carrying no trust
flag of its own: in isolation it satisfies the directory invariant. -/
def newerPortlessRouter : RouterInfo :=
  { baseRouter with
    nickname := "ndir"
    address := "dir.example"
    dir_port := 0
    published_on := 20
    identity_pkey := 5 }

/-- An existing running record for nickname `Alice`, published at 20. -/
def aliceCurrent : RouterInfo :=
  { baseRouter with
    nickname := "Alice"
    published_on := 20
    identity_pkey := 7
    is_running := true }

/-- An older not-running descriptor for the same identity as
`aliceCurrent`, with the nickname in a different case. -/
def aliceStale : RouterInfo :=
  { baseRouter with
    nickname := "alice"
    published_on := 15
    identity_pkey := 7
    is_running := false }

/-- A directory-capable record published far in the past. -/
def ancientDirRouter : RouterInfo :=
  { baseRouter with
    nickname := "old"
    dir_port := 9030
    published_on := -1000
    identity_pkey := 9 }

/-- A running record with nickname `a`, used by the selection witness. -/
def runnerA : RouterInfo :=
  { baseRouter with
    nickname := "a"
    identity_pkey := 11 }

/-- A trusted directory currently marked not-running. -/
def downTrustedDir : RouterInfo :=
  { baseRouter with
    nickname := "d"
    dir_port := 9030
    identity_pkey := 12
    is_running := false
    is_trusted_dir := true }

/-- A record whose identity digest is the all-zero digest (it decodes from
the 40-zero hex token) but whose nickname does not resemble it. -/
def hexAlias : RouterInfo :=
  { baseRouter with
    nickname := "X"
    identity_digest := List.replicate 20 0
    identity_pkey := 13 }

/-- A record whose nickname is literally the 40-character zero token, with
an unrelated identity digest. -/
def zeroNick : RouterInfo :=
  { baseRouter with
    nickname := String.mk (List.replicate 40 '0')
    identity_digest := List.replicate 20 1
    identity_pkey := 14 }

/-- The 40-character all-zero hex token. -/
def zeroToken : String := String.mk (List.replicate 40 '0')

/-- A plain record for the lookup witness. -/
def bobRouter : RouterInfo :=
  { baseRouter with
    nickname := "Bob"
    identity_pkey := 15 }

/-- A registry value for the stale running-update witness. -/
def sampleRouterlist : Routerlist :=
  { routers := [aliceCurrent]
    published_on := 50
    running_routers_updated_on := 60 }

/-- A running-routers feed older than the registry's last running
update. -/
def staleFeed : RunningRouters :=
  { published_on := 55
    running_routers := ["alice"] }

/-- Claim C1 (as written): the unknown-address possible-match condition. -/
theorem unknown_match_claim_counterexample :
    ¬ ((rule_match_maybe 0 0 narrowMaskedRule).2 = true ↔
      ((narrowMaskedRule.msk ≠ 0 ∧ narrowMaskedRule.prt_min ≤ 0 ∧
          0 ≤ narrowMaskedRule.prt_max) ∨
        (narrowMaskedRule.msk = 0 ∧ (0 : Nat) = 0))) := by
  decide

/-- Claim C1 (amended): with an unknown address, a rule is a definite match
exactly when its mask is 0 and the port is within its range; it is a
possible match exactly when either its mask is nonzero and the port is
within its range, or the port is outside its range and the queried port is
the wildcard 0 (irrespective of the mask). -/
theorem unknown_match_amended (tmpe : ExitPolicy) (port : Nat) :
    ((rule_match_maybe 0 port tmpe).1 = true ↔
      (tmpe.msk = 0 ∧ tmpe.prt_min ≤ port ∧ port ≤ tmpe.prt_max)) ∧
    ((rule_match_maybe 0 port tmpe).2 = true ↔
      ((tmpe.msk ≠ 0 ∧ tmpe.prt_min ≤ port ∧ port ≤ tmpe.prt_max) ∨
        (¬ (tmpe.prt_min ≤ port ∧ port ≤ tmpe.prt_max) ∧ port = 0))) := by
  unfold rule_match_maybe
  by_cases hin : tmpe.prt_min ≤ port ∧ port ≤ tmpe.prt_max
  · by_cases hm : tmpe.msk = 0
    · simp [hin, hm]
    · simp [hin, hm]
  · by_cases hp : port = 0
    · subst hp
      have hmin : ¬ tmpe.prt_min = 0 := fun h0 => hin ⟨Nat.le_of_eq h0, Nat.zero_le _⟩
      by_cases hm : tmpe.msk = 0 <;> simp [hin, hm, hmin]
    · simp [hin, hp]

/-- Claim C1 amended, evaluated at the wildcard port against
`narrowMaskedRule`. -/
theorem unknown_match_amended_witness :
    (rule_match_maybe 0 0 narrowMaskedRule).2 = true ↔
      ((narrowMaskedRule.msk ≠ 0 ∧ narrowMaskedRule.prt_min ≤ 0 ∧
          0 ≤ narrowMaskedRule.prt_max) ∨
        (¬ (narrowMaskedRule.prt_min ≤ 0 ∧ 0 ≤ narrowMaskedRule.prt_max) ∧
          (0 : Nat) = 0)) :=
  (unknown_match_amended narrowMaskedRule 0).2

/-- Claim C2: the four concrete classifications of the §8 sample policy
`[Accept 1.2.3.4/32 port 80, Reject 0.0.0.0/0 port *]`. -/
theorem sample_policy_concrete_cases :
    router_compare_addr_to_exit_policy 0x01020304 80 samplePolicy =
        AddrPolicyResult.accepted ∧
    router_compare_addr_to_exit_policy 0x01020304 81 samplePolicy =
        AddrPolicyResult.rejected ∧
    router_compare_addr_to_exit_policy 0 80 samplePolicy =
        AddrPolicyResult.unknown ∧
    router_compare_addr_to_exit_policy 0 443 samplePolicy =
        AddrPolicyResult.rejected := by
  refine ⟨?_, ?_, ?_, ?_⟩ <;> decide

/-- Claim C3: merging an incoming record whose nickname matches the
existing record `r` for the same identity and whose `published_on` is not
strictly newer returns -1 (Rejected) and keeps `r`'s body, only
overwriting the kept record's `is_running` flag with the incoming value
(and adding, never clearing, the trust flag); in particular an older
not-running report flips a running record to not-running. -/
theorem merge_stale_reject (pre post : List RouterInfo) (r router : RouterInfo)
    (hpre : ∀ x ∈ pre, strcaseEq router.nickname x.nickname = false)
    (hnick : strcaseEq router.nickname r.nickname = true)
    (hkey : router.identity_pkey = r.identity_pkey)
    (hstale : ¬ r.published_on < router.published_on) :
    router_add_to_routerlist router (pre ++ r :: post) =
      (-1, pre ++ { r with
          is_trusted_dir := r.is_trusted_dir || router.is_trusted_dir,
          is_running := router.is_running } :: post) := by
  induction pre with
  | nil =>
    simp only [List.nil_append, router_add_to_routerlist]
    rw [if_pos hnick, if_pos hkey, if_neg hstale]
  | cons x pre ih =>
    have hx : strcaseEq router.nickname x.nickname = false :=
      hpre x (List.mem_cons_self x pre)
    have ih' := ih (fun y hy => hpre y (List.mem_cons_of_mem x hy))
    simp only [List.cons_append, router_add_to_routerlist]
    rw [if_neg (by simp [hx])]
    simp only [List.append_eq]
    rw [ih']

/-- Claim C3 at a concrete input: the stale not-running `alice` descriptor
is rejected, yet flips the kept running record to not-running. -/
theorem merge_stale_reject_witness :
    aliceCurrent.is_running = true ∧ aliceStale.is_running = false ∧
    router_add_to_routerlist aliceStale [aliceCurrent] =
      (-1, [{ aliceCurrent with
          is_trusted_dir := aliceCurrent.is_trusted_dir || aliceStale.is_trusted_dir,
          is_running := aliceStale.is_running }]) :=
  ⟨by decide, by decide,
    merge_stale_reject [] [] aliceCurrent aliceStale
      (fun x hx => absurd hx (List.not_mem_nil x)) (by decide) (by decide)
      (by decide)⟩

/-- Claim C4: trust is sticky — if some record `r` in the registry is
trusted, then after merging any incoming record for the same identity the
registry still holds a trusted record carrying `r`'s identity key. -/
theorem merge_trust_sticky (rl : List RouterInfo) (router r : RouterInfo)
    (hmem : r ∈ rl) (_hid : router.identity_pkey = r.identity_pkey)
    (htr : r.is_trusted_dir = true) :
    ∃ s ∈ (router_add_to_routerlist router rl).2,
      s.identity_pkey = r.identity_pkey ∧ s.is_trusted_dir = true := by
  induction rl with
  | nil => cases hmem
  | cons x rest ih =>
    by_cases hn : strcaseEq router.nickname x.nickname = true
    · by_cases hk : router.identity_pkey = x.identity_pkey
      · by_cases hp : x.published_on < router.published_on
        · simp only [router_add_to_routerlist]
          rw [if_pos hn, if_pos hk, if_pos hp]
          rcases List.mem_cons.mp hmem with heq | hr
          · subst heq
            exact ⟨_, List.mem_cons_self _ _, hk, by simp [htr]⟩
          · exact ⟨r, List.mem_cons_of_mem _ hr, rfl, htr⟩
        · simp only [router_add_to_routerlist]
          rw [if_pos hn, if_pos hk, if_neg hp]
          rcases List.mem_cons.mp hmem with heq | hr
          · subst heq
            exact ⟨_, List.mem_cons_self _ _, rfl, by simp [htr]⟩
          · exact ⟨r, List.mem_cons_of_mem _ hr, rfl, htr⟩
      · simp only [router_add_to_routerlist]
        rw [if_pos hn, if_neg hk]
        exact ⟨r, hmem, rfl, htr⟩
    · simp only [router_add_to_routerlist]
      rw [if_neg hn]
      rcases List.mem_cons.mp hmem with heq | hr
      · subst heq
        exact ⟨r, List.mem_cons_self _ _, rfl, htr⟩
      · rcases ih hr with ⟨s, hs, h1, h2⟩
        exact ⟨s, List.mem_cons_of_mem _ hs, h1, h2⟩

/-- Claim C4 at a concrete input: merging the newer untrusted descriptor
for `trustedDirRouter`'s identity leaves a trusted record for that
identity in the registry. -/
theorem merge_trust_sticky_witness :
    ∃ s ∈ (router_add_to_routerlist newerPortlessRouter [trustedDirRouter]).2,
      s.identity_pkey = trustedDirRouter.identity_pkey ∧
      s.is_trusted_dir = true :=
  merge_trust_sticky [trustedDirRouter] newerPortlessRouter trustedDirRouter
    (List.mem_cons_self _ _) (by decide) (by decide)

/-- Claim C5: the invariant `is_trusted_dir → dir_port > 0` is not
preserved by merge. Both `trustedDirRouter` and `newerPortlessRouter`
satisfy the invariant, but merging the newer portless descriptor copies
the trust flag onto a record whose directory port is 0, and the resulting
registry contains a running trusted record with directory port 0 — the
exact situation in which `tor_assert(router->dir_port > 0)` in
`router_pick_directory_server_impl` fires. -/
theorem trusted_dirport_invariant_violation :
    dir_port_invariant [trustedDirRouter] = true ∧
    dir_port_invariant [newerPortlessRouter] = true ∧
    dir_port_invariant
      (router_add_to_routerlist newerPortlessRouter [trustedDirRouter]).2 =
      false ∧
    ((router_add_to_routerlist newerPortlessRouter [trustedDirRouter]).2.filter
        (fun r => r.is_running && r.is_trusted_dir)).any
      (fun r => decide (r.dir_port = 0)) = true := by
  refine ⟨?_, ?_, ?_, ?_⟩ <;> decide

/-- A record matching the age-eviction predicate never survives
`routerlist_remove_old_routers`. -/
theorem remove_old_not_mem (cutoff : Int) (r : RouterInfo)
    (hold : r.published_on < cutoff) (hport : r.dir_port = 0) :
    ∀ rl : List RouterInfo, r ∉ routerlist_remove_old_routers cutoff rl := by
  intro rl
  induction rl with
  | nil => simp [routerlist_remove_old_routers]
  | cons x rest ih =>
    simp only [routerlist_remove_old_routers]
    by_cases hx : x.published_on < cutoff ∧ x.dir_port = 0
    · rw [if_pos hx]; exact ih
    · rw [if_neg hx]
      intro hmem
      rcases List.mem_cons.mp hmem with heq | hr
      · exact hx (heq ▸ ⟨hold, hport⟩)
      · exact ih hr

/-- A record not matching the age-eviction predicate always survives
`routerlist_remove_old_routers`. -/
theorem remove_old_mem (cutoff : Int) (r : RouterInfo)
    (hkeep : ¬ (r.published_on < cutoff ∧ r.dir_port = 0)) :
    ∀ rl : List RouterInfo, r ∈ rl →
      r ∈ routerlist_remove_old_routers cutoff rl := by
  intro rl hmem
  induction rl with
  | nil => cases hmem
  | cons x rest ih =>
    simp only [routerlist_remove_old_routers]
    rcases List.mem_cons.mp hmem with heq | hr
    · subst heq
      rw [if_neg hkeep]
      exact List.mem_cons_self _ _
    · by_cases hx : x.published_on < cutoff ∧ x.dir_port = 0
      · rw [if_pos hx]; exact ih hr
      · rw [if_neg hx]; exact List.mem_cons_of_mem _ (ih hr)

/-- Claim C6: eviction with cutoff `now - maxAge` removes exactly the
records strictly older than the cutoff whose directory port is 0, and a
directory-capable record (positive directory port) always survives. -/
theorem remove_old_routers_exact (now maxAge : Int) (rl : List RouterInfo)
    (r : RouterInfo) (hmem : r ∈ rl) :
    (r ∉ routerlist_remove_old_routers (now - maxAge) rl ↔
      (r.published_on < now - maxAge ∧ r.dir_port = 0)) ∧
    (0 < r.dir_port → r ∈ routerlist_remove_old_routers (now - maxAge) rl) := by
  constructor
  · constructor
    · intro hnm
      by_contra hkeep
      exact hnm (remove_old_mem _ r hkeep rl hmem)
    · rintro ⟨h1, h2⟩
      exact remove_old_not_mem _ r h1 h2 rl
  · intro hpos
    apply remove_old_mem _ r _ rl hmem
    rintro ⟨_, h2⟩
    omega

/-- Claim C6 at a concrete input: `ancientDirRouter` is far older than the
cutoff but directory-capable, and survives eviction. -/
theorem remove_old_routers_exact_witness :
    ancientDirRouter ∈
      routerlist_remove_old_routers (100 - 50) [ancientDirRouter] :=
  (remove_old_routers_exact 100 50 [ancientDirRouter] ancientDirRouter
    (List.mem_cons_self _ _)).2 (by decide)

/-- A record found by `router_get_by_nickname` is a member of the
registry. -/
theorem router_get_by_nickname_mem (rl : List RouterInfo) (s : String)
    (r : RouterInfo) (h : router_get_by_nickname rl s = some r) : r ∈ rl := by
  unfold router_get_by_nickname at h
  by_cases hd : s.toList.head? = some '$'
  · rw [if_pos hd] at h
    unfold router_get_by_hexdigest at h
    by_cases hl : (strip_dollar s).length = 40
    · rw [if_pos hl] at h
      cases hb : base16_decode (strip_dollar s) with
      | none => rw [hb] at h; simp at h
      | some digest =>
        rw [hb] at h
        unfold router_get_by_digest at h
        exact List.mem_of_find?_eq_some h
    · rw [if_neg hl] at h; simp at h
  · rw [if_neg hd] at h
    exact List.mem_of_find?_eq_some h

/-- Members of the token-resolution list are running members of the
registry. -/
theorem add_nickname_tokens_mem (rl : List RouterInfo)
    (toks : List (List Char)) (r : RouterInfo)
    (h : r ∈ add_nickname_tokens rl toks) :
    r ∈ rl ∧ r.is_running = true := by
  induction toks with
  | nil => cases h
  | cons tok rest ih =>
    simp only [add_nickname_tokens] at h
    split at h
    next router hg =>
      split at h
      next hr =>
        rcases List.mem_cons.mp h with heq | hmem
        · subst heq
          exact ⟨router_get_by_nickname_mem rl _ r hg, hr⟩
        · exact ih hmem
      next hr => exact ih h
    next hg => exact ih h

/-- Members of `add_nickname_list_to_smartlist` are running members of
the registry. -/
theorem add_nickname_list_mem (rl : List RouterInfo) (s : String)
    (r : RouterInfo) (h : r ∈ add_nickname_list_to_smartlist rl s) :
    r ∈ rl ∧ r.is_running = true :=
  add_nickname_tokens_mem rl (tokenize s.toList) r h

/-- A record returned by `smartlist_choose` is a member of the list. -/
theorem smartlist_choose_mem (k : Nat) (sl : List RouterInfo)
    (r : RouterInfo) (h : smartlist_choose k sl = some r) : r ∈ sl := by
  unfold smartlist_choose at h
  obtain ⟨hlt, rfl⟩ := List.getElem?_eq_some_iff.mp h
  exact List.getElem_mem hlt

/-- `smartlist_choose` on a nonempty list returns a member. -/
theorem smartlist_choose_nonempty (k : Nat) (sl : List RouterInfo)
    (h : sl ≠ []) : ∃ r, smartlist_choose k sl = some r := by
  have hlen : 0 < sl.length := List.length_pos.mpr h
  have hk : k % sl.length < sl.length := Nat.mod_lt _ hlen
  refine ⟨sl[k % sl.length], ?_⟩
  unfold smartlist_choose
  exact List.getElem?_eq_getElem hk

/-- The double subtraction keeps no member of either exclusion list. -/
theorem smartlist_subtract_not_mem (base e1 e2 : List RouterInfo)
    (x : RouterInfo) (hx : x ∈ smartlist_subtract (smartlist_subtract base e1) e2) :
    x ∉ e1 ∧ x ∉ e2 := by
  rcases List.mem_filter.mp hx with ⟨hx1, hp2⟩
  rcases List.mem_filter.mp hx1 with ⟨_, hp1⟩
  constructor
  · intro hmem; simp [hmem] at hp1
  · intro hmem; simp [hmem] at hp2

/-- Claim C7: `router_choose_random_node` never returns a member of the
exclusion set (the resolved excluded names united with the excluded
list), and when that set covers every running record the result is `none`
even if preferred names name running records. -/
theorem choose_random_node_exclusion (rl : List RouterInfo) (orport : Bool)
    (hasConn : List Nat → Bool) (k1 k2 : Nat) (preferred excluded : String)
    (excludedsmartlist : List RouterInfo) :
    ((∀ r ∈ rl, r.is_running = true →
        r ∈ add_nickname_list_to_smartlist rl excluded ∨
          r ∈ excludedsmartlist) →
      router_choose_random_node rl orport hasConn k1 k2 preferred excluded
        excludedsmartlist = none) ∧
    (∀ c, router_choose_random_node rl orport hasConn k1 k2 preferred
        excluded excludedsmartlist = some c →
      c ∉ add_nickname_list_to_smartlist rl excluded ∧
        c ∉ excludedsmartlist) := by
  constructor
  · intro hcov
    have h1 : smartlist_subtract (smartlist_subtract
        (add_nickname_list_to_smartlist rl preferred)
        (add_nickname_list_to_smartlist rl excluded)) excludedsmartlist = [] := by
      apply List.filter_eq_nil_iff.mpr
      intro a ha
      rcases List.mem_filter.mp ha with ⟨hmemA, hpred⟩
      rcases add_nickname_list_mem rl preferred a hmemA with ⟨harl, hrun⟩
      rcases hcov a harl hrun with hE | hX
      · simp [hE] at hpred
      · simp [hX]
    have h2 : smartlist_subtract (smartlist_subtract
        (router_add_running_routers_to_smartlist rl orport hasConn)
        (add_nickname_list_to_smartlist rl excluded)) excludedsmartlist = [] := by
      apply List.filter_eq_nil_iff.mpr
      intro a ha
      rcases List.mem_filter.mp ha with ⟨hmemA, hpred⟩
      rcases List.mem_filter.mp hmemA with ⟨harl, hcond⟩
      have hrun : a.is_running = true :=
        ((Bool.and_eq_true _ _).mp hcond).1
      rcases hcov a harl hrun with hE | hX
      · simp [hE] at hpred
      · simp [hX]
    unfold router_choose_random_node
    rw [h1, h2]
    simp [smartlist_choose]
  · intro c hc
    unfold router_choose_random_node at hc
    cases hq : smartlist_choose k1
        (smartlist_subtract (smartlist_subtract
          (add_nickname_list_to_smartlist rl preferred)
          (add_nickname_list_to_smartlist rl excluded)) excludedsmartlist) with
    | some choice =>
      rw [hq] at hc
      have hcc : choice = c := by simpa using hc
      subst hcc
      exact smartlist_subtract_not_mem _ _ _ choice
        (smartlist_choose_mem k1 _ choice hq)
    | none =>
      rw [hq] at hc
      exact smartlist_subtract_not_mem _ _ _ c
        (smartlist_choose_mem k2 _ c hc)

/-- Claim C7 at a concrete input: with the single running record `runnerA`
both named as preferred and excluded, selection returns `none`. -/
theorem choose_random_node_exclusion_witness :
    router_choose_random_node [runnerA] false (fun _ => true) 0 0 "a" "a" [] =
      none :=
  (choose_random_node_exclusion [runnerA] false (fun _ => true) 0 0 "a" "a"
    []).1 (by decide)

/-- Claim C8: on a registry satisfying the data model's directory
invariant (`is_trusted_dir` implies a positive directory port, so neither
loop's `tor_assert` fires) that has trusted directories but none of them
both trusted and running, a single `router_pick_directory_server_impl`
attempt completes without aborting, marks every trusted record running,
and returns one of the trusted records (a non-`none` result). -/
theorem pick_directory_server_fallback (k1 k2 : Nat) (rl : List RouterInfo)
    (hinv : dir_port_invariant rl = true)
    (hex : ∃ r ∈ rl, r.is_trusted_dir = true)
    (hdown : ∀ r ∈ rl, ¬ (r.is_running = true ∧ r.is_trusted_dir = true)) :
    ∃ c upd,
      router_pick_directory_server_impl k1 k2 rl = some (some c, upd) ∧
      c.is_trusted_dir = true ∧ c.is_running = true ∧ c ∈ upd ∧
      ∀ r ∈ upd, r.is_trusted_dir = true → r.is_running = true := by
  have hport : ∀ r ∈ rl, r.is_trusted_dir = true → ¬ r.dir_port = 0 := by
    intro r hr htr h0
    have hb := List.all_eq_true.mp hinv r hr
    simp [htr, h0] at hb
  have hany1 : rl.any
      (fun r => r.is_running && r.is_trusted_dir && decide (r.dir_port = 0)) =
      false := by
    rw [List.any_eq_false]
    intro r hr hp
    rcases (Bool.and_eq_true _ _).mp hp with ⟨hrt, hd0⟩
    exact hport r hr ((Bool.and_eq_true _ _).mp hrt).2 (of_decide_eq_true hd0)
  have hany2 : rl.any
      (fun r => r.is_trusted_dir && decide (r.dir_port = 0)) = false := by
    rw [List.any_eq_false]
    intro r hr hp
    rcases (Bool.and_eq_true _ _).mp hp with ⟨htr, hd0⟩
    exact hport r hr htr (of_decide_eq_true hd0)
  have hfilter : rl.filter (fun r => r.is_running && r.is_trusted_dir) = [] := by
    apply List.filter_eq_nil_iff.mpr
    intro a ha hab
    exact hdown a ha ((Bool.and_eq_true _ _).mp hab)
  have hnone : smartlist_choose k1
      (rl.filter (fun r => r.is_running && r.is_trusted_dir)) = none := by
    rw [hfilter]
    simp [smartlist_choose]
  have hall : ∀ r ∈ rl.map mark_trusted_running,
      r.is_trusted_dir = true → r.is_running = true := by
    intro r hr htr
    rcases List.mem_map.mp hr with ⟨a, ha, rfl⟩
    unfold mark_trusted_running at htr ⊢
    by_cases hta : a.is_trusted_dir = true
    · rw [if_pos hta]
    · rw [if_neg hta] at htr
      exact absurd htr hta
  have hne : (rl.map mark_trusted_running).filter
      (fun r => r.is_trusted_dir) ≠ [] := by
    obtain ⟨r0, hr0, htr0⟩ := hex
    apply List.ne_nil_of_mem (a := mark_trusted_running r0)
    apply List.mem_filter.mpr
    refine ⟨List.mem_map_of_mem _ hr0, ?_⟩
    unfold mark_trusted_running
    rw [if_pos htr0]
    exact htr0
  obtain ⟨c, hc⟩ := smartlist_choose_nonempty k2 _ hne
  have hcmem := smartlist_choose_mem k2 _ c hc
  rcases List.mem_filter.mp hcmem with ⟨hcmap, hctr⟩
  unfold router_pick_directory_server_impl
  rw [if_neg (by simp [hany1]), hnone, if_neg (by simp [hany2]), hc]
  exact ⟨c, rl.map mark_trusted_running, rfl, hctr, hall c hcmap hctr,
    hcmap, hall⟩

/-- Claim C8 at a concrete input: a registry holding one trusted,
not-running directory with a positive directory port yields a
non-aborting, non-`none` fallback pick and a registry in which every
trusted record is running. -/
theorem pick_directory_server_fallback_witness :
    ∃ c upd,
      router_pick_directory_server_impl 0 0 [downTrustedDir] =
        some (some c, upd) ∧
      c.is_trusted_dir = true ∧ c.is_running = true ∧ c ∈ upd ∧
      ∀ r ∈ upd, r.is_trusted_dir = true → r.is_running = true :=
  pick_directory_server_fallback 0 0 [downTrustedDir] (by decide)
    ⟨downTrustedDir, List.mem_cons_self _ _, by decide⟩ (by decide)

/-- Claim C9: a running-status feed whose `published_on` is not strictly
newer than the registry's full-publication timestamp, or not strictly
newer than its last running-update timestamp, changes nothing: the
registry (records and both timestamps) is returned unchanged. -/
theorem runningrouters_stale_noop (list : Routerlist) (rr : RunningRouters)
    (h : rr.published_on ≤ list.published_on ∨
      rr.published_on ≤ list.running_routers_updated_on) :
    routerlist_update_from_runningrouters list rr = list := by
  unfold routerlist_update_from_runningrouters
  rcases h with h1 | h2
  · rw [if_pos h1]
  · by_cases h1 : rr.published_on ≤ list.published_on
    · rw [if_pos h1]
    · rw [if_neg h1, if_pos h2]

/-- Claim C9 at a concrete input: a feed published at 55 against a
registry whose last running update is 60 is ignored. -/
theorem runningrouters_stale_noop_witness :
    routerlist_update_from_runningrouters sampleRouterlist staleFeed =
      sampleRouterlist :=
  runningrouters_stale_noop sampleRouterlist staleFeed (Or.inr (by decide))

/-- Claim C10 (as written): a nickname-matching record is preferred over a
digest-matching one. Counterexample: the token is 40 zeros; `hexAlias`
(earlier in the registry) matches it as a digest, `zeroNick` (later)
matches it as a nickname, and the scan returns `hexAlias`. -/
theorem get_by_nickname_counterexample :
    router_get_by_nickname [hexAlias, zeroNick] zeroToken = some hexAlias ∧
    strcaseEq zeroNick.nickname zeroToken = true ∧
    strcaseEq hexAlias.nickname zeroToken = false ∧
    hexAlias ≠ zeroNick := by
  refine ⟨?_, ?_, ?_, ?_⟩ <;> decide

/-- Claim C10 (amended): for a token without the `$` marker the scan
returns the first record matching by nickname or by digest; in particular
a nickname-matching record is the result whenever no earlier record
matches by either criterion. -/
theorem get_by_nickname_first_match (pre post : List RouterInfo)
    (r : RouterInfo) (nickname : String)
    (hdollar : ¬ nickname.toList.head? = some '$')
    (hpre : ∀ x ∈ pre,
      nickname_or_digest_match (hex40_decode nickname).isSome
        ((hex40_decode nickname).getD []) nickname x = false)
    (hnick : strcaseEq r.nickname nickname = true) :
    router_get_by_nickname (pre ++ r :: post) nickname = some r := by
  unfold router_get_by_nickname
  rw [if_neg hdollar]
  induction pre with
  | nil =>
    simp only [List.nil_append]
    apply List.find?_cons_of_pos
    unfold nickname_or_digest_match
    simp [hnick]
  | cons x pre ih =>
    have hx := hpre x (List.mem_cons_self x pre)
    rw [List.cons_append, List.find?_cons_of_neg _ (by simp [hx])]
    exact ih (fun y hy => hpre y (List.mem_cons_of_mem x hy))

/-- Claim C10 amended, at a concrete input: the token `bob` finds the
record nicknamed `Bob`. -/
theorem get_by_nickname_first_match_witness :
    router_get_by_nickname [bobRouter] "bob" = some bobRouter :=
  get_by_nickname_first_match [] [] bobRouter "bob" (by decide)
    (fun x hx => absurd hx (List.not_mem_nil x)) (by decide)
